import Mathlib

/-!
Verification of the gateway-api-reference-implementation repository.

This file gives a shallow embedding, in Lean 4, of the data model and the
algorithms of the repository: the data-plane matcher of `pkg/proxy/proxy.go`
(request matching, match precedence, best-candidate selection) and the
reconcilers of `pkg/controller` (route validation, status reporting, table
compilation, gateway address programming).  Go strings are modelled as Lean
`String` (lengths and indexing agree with Go's byte view on the ASCII inputs
considered here); Go `nil`-able pointers become `Option`; Go slices become
`List`; early-`return` loops become structural recursion or `List` folds.
-/

namespace GwProxy

/-- Structure `Backend` from `pkg/proxy/proxy.go`: the computed state for a backend
service (`Host string`, `Port int32`). -/
structure Backend where
  host : String
  port : Int
deriving DecidableEq

/-- Type `PathMatchType` from `pkg/proxy/proxy.go` is a string type. -/
abbrev PathMatchType := String

/-- Constant `PathMatchTypeExact` from `pkg/proxy/proxy.go`. -/
def PathMatchTypeExact : PathMatchType := "Exact"

/-- Constant `PathMatchTypePathPrefix` from `pkg/proxy/proxy.go`. -/
def PathMatchTypePathPrefix : PathMatchType := "PathPrefix"

/-- Constant `PathMatchTypeNone` from `pkg/proxy/proxy.go`. -/
def PathMatchTypeNone : PathMatchType := "None"

/-- Method `PathMatchType.Weight` from `pkg/proxy/proxy.go` (lines 43-54): the
precedence weight of a path match type; `Exact` is 3, `PathPrefix` 2,
`None` 1, anything else 0. -/
def PathMatchType.Weight (t : PathMatchType) : Nat :=
  if t = PathMatchTypeExact then 3
  else if t = PathMatchTypePathPrefix then 2
  else if t = PathMatchTypeNone then 1
  else 0

/-- Structure `PathMatch` from `pkg/proxy/proxy.go`. -/
structure PathMatch where
  type : PathMatchType
  value : String
deriving DecidableEq

/-- Structure `HeaderMatch` from `pkg/proxy/proxy.go` (lines 62-67): fields `Type`,
`Name`, `Value`.  Note: this is the declaration the data plane under `src/`
compiles against; `pkg/controller/httproute_controller.go` refers to fields
`MatchExactValue` / `MatchRegularExpressionValue` that this declaration does
not have — the two files come from different states of the tree. -/
structure HeaderMatch where
  type : String
  name : String
  value : String
deriving DecidableEq

/-- Structure `RouteMatch` from `pkg/proxy/proxy.go`. -/
structure RouteMatch where
  path : Option PathMatch
  headers : List HeaderMatch
deriving DecidableEq

/-- Structure `RouteRule` from `pkg/proxy/proxy.go`. -/
structure RouteRule where
  Matches : List RouteMatch
  backend : Backend
deriving DecidableEq

/-- Structure `HTTPRoute` from `pkg/proxy/proxy.go`. -/
structure HTTPRoute where
  hostnames : List String
  rules : List RouteRule
deriving DecidableEq

/-- The part of an inbound `*http.Request` the matcher reads: `r.Host`,
`r.URL.Path`, and `r.Header.Get` (modelled as a total lookup returning `""`
for an absent header, as Go's `Header.Get` does). -/
structure Request where
  host : String
  path : String
  headerGet : String → String

/-- Function `getPathMatchType` from `pkg/proxy/proxy.go`: `None` when the candidate
has no path clause, else the clause's type. -/
def getPathMatchType (m : RouteMatch) : PathMatchType :=
  match m.path with
  | none => PathMatchTypeNone
  | some p => p.type

/-- Function `getPathLen` from `pkg/proxy/proxy.go`: 0 when the candidate has no path
clause, else the length of the clause's value. -/
def getPathLen (m : RouteMatch) : Nat :=
  match m.path with
  | none => 0
  | some p => p.value.length

/-- Function `isBetterMatch` from `pkg/proxy/proxy.go` (lines 146-168): `best = none`
always loses; otherwise compare path-match-type weights when the types
differ, else path value lengths, else header-clause counts. -/
def isBetterMatch (current : RouteMatch) (best : Option RouteMatch) : Bool :=
  match best with
  | none => true
  | some best =>
    let currentType := getPathMatchType current
    let bestType := getPathMatchType best
    if currentType ≠ bestType then
      currentType.Weight > bestType.Weight
    else
      let currentPathLen := getPathLen current
      let bestPathLen := getPathLen best
      if currentPathLen ≠ bestPathLen then
        currentPathLen > bestPathLen
      else
        current.headers.length > best.headers.length

/-- Function `matchHostname` from `pkg/proxy/proxy.go`: an empty hostname list matches
every host; otherwise some entry must be `"*"` or equal to the host. -/
def matchHostname (hostnames : List String) (host : String) : Bool :=
  if hostnames.isEmpty then true
  else hostnames.any fun h => h = "*" || h = host

/-- Function `hasPathPrefix` from `pkg/proxy/proxy.go` (lines 220-237).  Go's byte
indexing `path[len(p)]` and slicing `path[:len(p)]` are rendered with
character positions, which coincide on ASCII. -/
def hasPathPrefix (path pre : String) : Bool :=
  if pre = "/" then true
  else if path = pre then true
  else if path.length > pre.length && path.data.get? pre.length = some '/'
      && path.take pre.length = pre then true
  else if pre.length > 0 && pre.data.getLast? = some '/' then
    path.length ≥ pre.length && path.take pre.length = pre
  else false

/-- Function `matchMatch` from `pkg/proxy/proxy.go` (lines 197-218): the path clause
(when present) is checked only for types `Exact` and `PathPrefix` (any other
type imposes no constraint), and every header clause requires the request's
header value to equal the clause's `Value` field literally — the clause
`Type` is never consulted by the data plane. -/
def matchMatch (m : RouteMatch) (r : Request) : Bool :=
  (match m.path with
   | none => true
   | some p =>
     if p.type = PathMatchTypeExact then r.path = p.value
     else if p.type = PathMatchTypePathPrefix then hasPathPrefix r.path p.value
     else true) &&
  m.headers.all fun hm => r.headerGet hm.name = hm.value

/-- Value `RouteMatch{}` installed by `ServeHTTP` when a rule with zero
matches is selected: no path clause, no header clauses. -/
def emptyRouteMatch : RouteMatch := ⟨none, []⟩

/-- The mutable pair `(bestMatch, bestBackend)` threaded through the
selection loop of `ServeHTTP` (`pkg/proxy/proxy.go`, lines 110-136). -/
structure BestState where
  bestMatch : Option RouteMatch
  bestBackend : Option Backend
deriving DecidableEq

/-- One iteration of the innermost loop of `ServeHTTP`: a satisfied match
replaces the current best exactly when `isBetterMatch` says so. -/
def stepMatch (r : Request) (bk : Backend) (s : BestState) (m : RouteMatch) : BestState :=
  if matchMatch m r then
    if isBetterMatch m s.bestMatch then ⟨some m, some bk⟩ else s
  else s

/-- The per-rule body of `ServeHTTP`'s loop: scan the rule's matches, then —
for a rule with zero matches — install the rule's backend with an empty
`RouteMatch{}` only when no backend has been selected yet. -/
def stepRule (r : Request) (s : BestState) (rule : RouteRule) : BestState :=
  let s1 := rule.Matches.foldl (stepMatch r rule.backend) s
  if rule.Matches.isEmpty then
    if s1.bestBackend = none then ⟨some emptyRouteMatch, some rule.backend⟩ else s1
  else s1

/-- The per-route body of `ServeHTTP`'s loop: routes whose hostnames do not
match the request's host are skipped entirely. -/
def stepRoute (r : Request) (s : BestState) (route : HTTPRoute) : BestState :=
  if matchHostname route.hostnames r.host then
    route.rules.foldl (stepRule r) s
  else s

/-- The selection loop of `ServeHTTP` (`pkg/proxy/proxy.go`, lines 110-136),
run over a captured routing-table snapshot. -/
def resolveState (routes : List HTTPRoute) (r : Request) : BestState :=
  routes.foldl (stepRoute r) ⟨none, none⟩

/-- The routing outcome of `ServeHTTP`: the backend forwarded to, or `none`
for the 404 "No route" response. -/
def resolve (routes : List HTTPRoute) (r : Request) : Option Backend :=
  (resolveState routes r).bestBackend

end GwProxy

namespace GwController

/-- Constant `ControllerName` of the controller package.  Its defining file is
not among the sources at hand (both reconcilers reference it); the deployment
manifests declare this value.  No result below depends on the concrete
string, only on its self-equality. -/
def ControllerName : String := "github.com/gke-labs/gateway-api-reference-implementation"

/-- Condition as written to resource status (`metav1.Condition`): type,
status (`"True"`/`"False"`), reason, message, observed generation.  The
`LastTransitionTime` field (wall-clock `metav1.Now()`) is impure and not
modelled. -/
structure Condition where
  type : String
  status : String
  reason : String
  message : String
  observedGeneration : Nat
deriving DecidableEq

/-- Per-parent route status (`gatewayv1.RouteParentStatus`); the parent
reference is copied verbatim by the code, so it is modelled opaquely as a
string identifier. -/
structure RouteParentStatus where
  parentRef : String
  controllerName : String
  conditions : List Condition
deriving DecidableEq

/-- Header match of the route spec (`gatewayv1.HTTPHeaderMatch`): a `nil`
type defaults to `Exact` downstream. -/
structure GwHeaderMatch where
  type : Option String
  name : String
  value : String
deriving DecidableEq

/-- Path match of the route spec (`gatewayv1.HTTPPathMatch`): a `nil` type
defaults to `PathPrefix` downstream.  The code dereferences `*match.Path.Value`
unconditionally, so the value is modelled as present. -/
structure GwPathMatch where
  type : Option String
  value : String
deriving DecidableEq

/-- Route-spec match (`gatewayv1.HTTPRouteMatch`), restricted to the fields
the controller reads. -/
structure GwRouteMatch where
  path : Option GwPathMatch
  headers : List GwHeaderMatch
deriving DecidableEq

/-- Backend reference of a rule (`gatewayv1.HTTPBackendRef`), restricted to
the fields the controller reads: optional kind, name, optional port. -/
structure GwBackendRef where
  kind : Option String
  name : String
  port : Option Int
deriving DecidableEq

/-- Route-spec rule (`gatewayv1.HTTPRouteRule`), restricted to the fields the
controller reads. -/
structure GwRouteRule where
  Matches : List GwRouteMatch
  backendRefs : List GwBackendRef
deriving DecidableEq

/-- External `gatewayv1.HTTPRoute` resource, restricted to the fields the
controller reads: object namespace and generation, spec hostnames, parent
references, rules, and the current status parents. -/
structure GwHTTPRoute where
  ns : String
  generation : Nat
  hostnames : List String
  parentRefs : List String
  rules : List GwRouteRule
  statusParents : List RouteParentStatus
deriving DecidableEq

/-- Abstract result of Go's `regexp.Compile`: success, or an error message.
The compiled automaton itself is never consulted by the code under
verification, so only the success/failure outcome is retained. -/
abbrev RegexpCompile := String → Except String Unit

/-- Function `validateRoute` from `pkg/controller/httproute_controller.go`
(lines 112-125): the first header match of type `RegularExpression` whose
pattern fails to compile yields the error
`"invalid regular expression in header match: <err>"`; otherwise the route is
valid (`none`). -/
def validateRoute (compile : RegexpCompile) (route : GwHTTPRoute) : Option String :=
  route.rules.findSome? fun rule =>
    rule.Matches.findSome? fun m =>
      m.headers.findSome? fun h =>
        if h.type = some "RegularExpression" then
          match compile h.value with
          | .error e => some ("invalid regular expression in header match: " ++ e)
          | .ok _ => none
        else none

/-- Acceptance filter of `extractRoutes` (lines 130-148): a route is kept iff
some status parent carries this controller's name and an `Accepted` condition
with status `True`. -/
def routeAccepted (route : GwHTTPRoute) : Bool :=
  route.statusParents.any fun ps =>
    ps.controllerName = ControllerName &&
      ps.conditions.any fun c => c.type = "Accepted" && c.status = "True"

/-- Header-clause compilation inside `extractRoutes` (lines 186-205): a `nil`
type defaults to `Exact`; a `RegularExpression` clause whose pattern fails to
compile is dropped (with a log diagnostic).  The produced clause carries the
clause value (the source stores it in `MatchExactValue`, a field the
`HeaderMatch` declaration of `pkg/proxy/proxy.go` does not have — see the
note on `GwProxy.HeaderMatch`; the `Value` field stands for it here). -/
def compileHeader (compile : RegexpCompile) (h : GwHeaderMatch) : Option GwProxy.HeaderMatch :=
  let headerType := h.type.getD "Exact"
  if headerType = "RegularExpression" then
    match compile h.value with
    | .error _ => none
    | .ok _ => some ⟨headerType, h.name, h.value⟩
  else some ⟨headerType, h.name, h.value⟩

/-- Match compilation inside `extractRoutes` (lines 174-208): the path clause
is copied verbatim with a `nil` type defaulting to `PathPrefix`; header
clauses are compiled by `compileHeader`. -/
def compileMatch (compile : RegexpCompile) (m : GwRouteMatch) : GwProxy.RouteMatch :=
  { path := m.path.map fun p => ⟨p.type.getD "PathPrefix", p.value⟩
    headers := m.headers.filterMap (compileHeader compile) }

/-- Backend-reference scan of `extractRoutes` (lines 156-214): walk the
rule's backend references in order; skip a reference whose kind is set and
not `"Service"`, and one with a `nil` port; the first remaining reference
produces the rule (host `<name>.<route-namespace>.svc.cluster.local`, that
reference's port) and the loop `break`s, ignoring all later references. -/
def extractRuleFromRefs (compile : RegexpCompile) (ns : String) (rule : GwRouteRule) :
    List GwBackendRef → Option GwProxy.RouteRule
  | [] => none
  | ref :: rest =>
    if ref.kind ≠ none ∧ ref.kind ≠ some "Service" then
      extractRuleFromRefs compile ns rule rest
    else if ref.port = none then
      extractRuleFromRefs compile ns rule rest
    else
      some { Matches := rule.Matches.map (compileMatch compile)
             backend := { host := ref.name ++ "." ++ ns ++ ".svc.cluster.local"
                          port := ref.port.getD 0 } }

/-- Predicate stated by the specification for C7: a backend reference
qualifies when its kind is unset or `"Service"` and its port is set.  It is
compared below with the reference scan the source performs. -/
def backendRefQualifies (ref : GwBackendRef) : Bool :=
  (ref.kind = none || ref.kind = some "Service") && ref.port ≠ none

/-- Compilation of one accepted route by `extractRoutes`: hostnames verbatim;
each rule contributes at most one compiled rule via its backend-reference
scan, and a rule yielding no qualifying reference is omitted. -/
def compileRoute (compile : RegexpCompile) (route : GwHTTPRoute) : GwProxy.HTTPRoute :=
  { hostnames := route.hostnames
    rules := route.rules.filterMap fun rule =>
      extractRuleFromRefs compile route.ns rule rule.backendRefs }

/-- Function `extractRoutes` from `pkg/controller/httproute_controller.go`
(lines 127-219): keep the accepted routes and compile each. -/
def extractRoutes (compile : RegexpCompile) (routes : List GwHTTPRoute) : List GwProxy.HTTPRoute :=
  routes.filterMap fun route =>
    if routeAccepted route then some (compileRoute compile route) else none

/-- Observable effects of one `HTTPRouteReconciler.Reconcile` call: the
status written to the route (if the status update succeeded), the table
passed to `Proxy.UpdateRoutes` (when called), and whether an error was
returned. -/
structure RouteReconcileOutcome where
  statusWrite : Option (List RouteParentStatus)
  tableUpdate : Option (List GwProxy.HTTPRoute)
  error : Bool
deriving DecidableEq

/-- Parent statuses built by `Reconcile` (lines 46-88): one entry per
declared parent reference, each carrying an `Accepted` condition (status,
reason and message from the validation pass) and a `ResolvedRefs=True`
condition. -/
def buildParentStatuses (route : GwHTTPRoute) (st reason msg : String) : List RouteParentStatus :=
  route.parentRefs.map fun pref =>
    { parentRef := pref
      controllerName := ControllerName
      conditions :=
        [ ⟨"Accepted", st, reason, msg, route.generation⟩,
          ⟨"ResolvedRefs", "True", "ResolvedRefs", "All references resolved", route.generation⟩ ] }

/-- Method `HTTPRouteReconciler.Reconcile` from
`pkg/controller/httproute_controller.go` (lines 38-110), for an event whose
route was fetched successfully.  `statusWriteOk` models the success of the
status update (a failure is returned as an error before anything else
happens); `listResult` models the cluster-wide `List` of routes performed in
the accepted case.  A route that failed validation gets `Accepted=False`
with reason `UnsupportedValue` and the reconcile returns without rebuilding
the table. -/
def HTTPRouteReconciler.Reconcile (compile : RegexpCompile) (statusWriteOk : Bool)
    (route : GwHTTPRoute) (listResult : List GwHTTPRoute) : RouteReconcileOutcome :=
  let validation := validateRoute compile route
  let st := match validation with | some _ => "False" | none => "True"
  let reason := match validation with | some _ => "UnsupportedValue" | none => "Accepted"
  let msg := match validation with
    | some e => "Invalid route: " ++ e
    | none => "Route accepted by reference implementation"
  let parents := buildParentStatuses route st reason msg
  if statusWriteOk = false then
    { statusWrite := none, tableUpdate := none, error := true }
  else if st = "False" then
    { statusWrite := some parents, tableUpdate := none, error := false }
  else
    { statusWrite := some parents
      tableUpdate := some (extractRoutes compile listResult)
      error := false }

/-- Effect of a reconcile outcome on the proxy's published table:
`UpdateRoutes` replaces it wholesale when called, otherwise it is untouched. -/
def applyTableUpdate (tbl : List GwProxy.HTTPRoute) (o : RouteReconcileOutcome) :
    List GwProxy.HTTPRoute :=
  o.tableUpdate.getD tbl

/-- Route resource as it stands after a reconcile wrote `parents` to its
status. -/
def withStatus (route : GwHTTPRoute) (parents : List RouteParentStatus) : GwHTTPRoute :=
  { route with statusParents := parents }

/-- External `gatewayv1.GatewayClass` resource, restricted to the declared
controller name. -/
structure GatewayClass where
  controllerName : String
deriving DecidableEq

/-- One `LoadBalancer` ingress entry of the backing service's status. -/
structure LoadBalancerIngress where
  ip : String
deriving DecidableEq

/-- The `gari-proxy` service, restricted to its load-balancer ingress list. -/
structure ProxyService where
  loadBalancerIngress : List LoadBalancerIngress
deriving DecidableEq

/-- Gateway status as written by `GatewayReconciler.Reconcile`: conditions
plus the published address list. -/
structure GatewayStatus where
  conditions : List Condition
  addresses : List String
deriving DecidableEq

/-- Observable effects of one `GatewayReconciler.Reconcile` call: the status
written to the gateway (if any), whether an error was returned, and whether
an explicit requeue was requested. -/
structure GatewayReconcileOutcome where
  statusWrite : Option GatewayStatus
  error : Bool
  requeue : Bool
deriving DecidableEq

/-- Extraction of the provisioned ingress address in
`GatewayReconciler.Reconcile` (`pkg/controller/gateway_controller.go`, lines
104-107): the IP of the first load-balancer ingress entry, `""` when there is
none. -/
def provisionedIP (svc : ProxyService) : String :=
  match svc.loadBalancerIngress with
  | [] => ""
  | ing :: _ => ing.ip

/-- Method `GatewayReconciler.Reconcile` from
`pkg/controller/gateway_controller.go` (lines 78-148), for an event whose
gateway was fetched successfully.  `gc` is the fetched class (`none` models
not-found, which is ignored); `svc` is the fetched `gari-proxy` service
(`none` models a fetch error, which is returned); the provisioned address is
the IP of the first load-balancer ingress entry, and an empty one yields an
explicit requeue with no status mutation and no error. -/
def GatewayReconciler.Reconcile (generation : Nat) (gc : Option GatewayClass)
    (svc : Option ProxyService) (statusWriteOk : Bool) : GatewayReconcileOutcome :=
  match gc with
  | none => { statusWrite := none, error := false, requeue := false }
  | some gc =>
    if gc.controllerName ≠ ControllerName then
      { statusWrite := none, error := false, requeue := false }
    else
      match svc with
      | none => { statusWrite := none, error := true, requeue := false }
      | some svc =>
        let ip := provisionedIP svc
        if ip = "" then
          { statusWrite := none, error := false, requeue := true }
        else if statusWriteOk then
          { statusWrite := some
              { conditions :=
                  [ ⟨"Programmed", "True", "Programmed",
                      "Gateway programmed by reference implementation", generation⟩,
                    ⟨"Accepted", "True", "Accepted",
                      "Gateway accepted by reference implementation", generation⟩ ]
                addresses := [ip] }
            error := false
            requeue := false }
        else
          { statusWrite := none, error := true, requeue := false }

end GwController

namespace GwConc

/-- Program counter of one request-serving worker executing `ServeHTTP`
(`pkg/proxy/proxy.go`, lines 105-108): it has not yet captured the table,
it holds a captured snapshot (`routes := p.routes` under `RLock`), or it has
computed its routing result from that snapshot. -/
inductive ReaderPC where
  | start : ReaderPC
  | captured : List GwProxy.HTTPRoute → ReaderPC
  | finished : Option GwProxy.Backend → ReaderPC
deriving DecidableEq

/-- Shared state of one `Proxy` plus one reader worker and one writer
(`UpdateRoutes`) that has either run or not. -/
structure Sys where
  table : List GwProxy.HTTPRoute
  writerDone : Bool
  reader : ReaderPC
deriving DecidableEq

/-- Interleaving semantics of one `UpdateRoutes(newTable)` call racing one
`ServeHTTP` resolution of `r`.  The mutex in the source makes each of the
three actions atomic: the writer's table swap, the reader's single capture of
the handle, and the reader's pure matching over the captured snapshot (which
never re-reads `p.routes`). -/
inductive Step (newTable : List GwProxy.HTTPRoute) (r : GwProxy.Request) : Sys → Sys → Prop where
  | write (s : Sys) (h : s.writerDone = false) :
      Step newTable r s { s with table := newTable, writerDone := true }
  | capture (s : Sys) (h : s.reader = .start) :
      Step newTable r s { s with reader := .captured s.table }
  | serve (s : Sys) (snap : List GwProxy.HTTPRoute) (h : s.reader = .captured snap) :
      Step newTable r s { s with reader := .finished (GwProxy.resolve snap r) }

/-- Executions: the reflexive-transitive closure of the interleaving step. -/
def Reaches (newTable : List GwProxy.HTTPRoute) (r : GwProxy.Request) : Sys → Sys → Prop :=
  Relation.ReflTransGen (Step newTable r)

/-- Initial state: the old table is published, the writer has not yet run,
the reader has not yet captured. -/
def init (old : List GwProxy.HTTPRoute) : Sys :=
  { table := old, writerDone := false, reader := .start }

end GwConc

namespace GwInv

/-- A candidate strictly better (under `isBetterMatch`) than the empty
`RouteMatch{}` installed for zero-match rules. -/
def goodM (m : GwProxy.RouteMatch) : Prop :=
  GwProxy.isBetterMatch m (some GwProxy.emptyRouteMatch) = true

/-- A selection state whose current best candidate is strictly better than
the empty match (and has a backend). -/
def goodS (s : GwProxy.BestState) : Prop :=
  ∃ m b, s.bestMatch = some m ∧ s.bestBackend = some b ∧ goodM m

/-- Selection states reachable by `ServeHTTP` set `bestMatch` and
`bestBackend` together. -/
def stateOk (s : GwProxy.BestState) : Prop :=
  s.bestMatch = none ↔ s.bestBackend = none

end GwInv

namespace GwFix

/-- Backend of the zero-match (universal) rule in the C2 counterexample. -/
def backendA : GwProxy.Backend := ⟨"a.default.svc.cluster.local", 80⟩

/-- Backend of the one-match rule in the C2 counterexample. -/
def backendB : GwProxy.Backend := ⟨"b.default.svc.cluster.local", 81⟩

/-- Request used by the concrete tables below: host `example.com`, path
`/x`, no headers. -/
def reqX : GwProxy.Request := ⟨"example.com", "/x", fun _ => ""⟩

/-- Request with path `/a`, no headers. -/
def reqA : GwProxy.Request := ⟨"example.com", "/a", fun _ => ""⟩

/-- Table whose single route has an `Exact /a` match (backend `backendB`). -/
def tableExact : List GwProxy.HTTPRoute :=
  [⟨[], [⟨[⟨some ⟨"Exact", "/a"⟩, []⟩], backendB⟩]⟩]

/-- An always-succeeding stand-in for `regexp.Compile`. -/
def okCompile : GwController.RegexpCompile := fun _ => .ok ()

/-- A `regexp.Compile` stand-in for which every pattern fails with message
`"bad"`. -/
def badCompile : GwController.RegexpCompile := fun _ => .error "bad"

/-- The example route of the specification: hostname `example.com`, one rule
with an `Exact /foo` path match and a backend reference
`{name: "svc", port: 80}` in namespace `ns`, accepted by this controller. -/
def exampleRoute : GwController.GwHTTPRoute :=
  { ns := "ns"
    generation := 1
    hostnames := ["example.com"]
    parentRefs := ["gw"]
    rules := [⟨[⟨some ⟨some "Exact", "/foo"⟩, []⟩], [⟨some "Service", "svc", some 80⟩]⟩]
    statusParents :=
      [⟨"gw", GwController.ControllerName, [⟨"Accepted", "True", "Accepted", "ok", 1⟩]⟩] }

/-- Fixture: a route with one `RegularExpression` header match, two parent
references and no status yet. -/
def regexRoute : GwController.GwHTTPRoute :=
  { ns := "default"
    generation := 2
    hostnames := []
    parentRefs := ["gw1", "gw2"]
    rules := [⟨[⟨none, [⟨some "RegularExpression", "x-h", "("⟩]⟩], [⟨none, "svc", some 80⟩]⟩]
    statusParents := [] }

end GwFix


/-- C3: a `PathPrefix` clause with value `/foo` is satisfied by request paths
`/foo`, `/foo/` and `/foo/bar` but not by `/foobar`; a clause value with a
trailing `/` is tolerated (value `/foo/` still matches `/foo/` and
`/foo/bar`); and an `Exact` path clause is satisfied iff the request path
equals the clause value exactly, so path `/foot` does not satisfy an `Exact
/foo` clause. -/
theorem claim_C3 :
    (∀ p : String, GwProxy.matchMatch ⟨some ⟨"PathPrefix", "/foo"⟩, []⟩ ⟨"example.com", p, fun _ => ""⟩
        = GwProxy.hasPathPrefix p "/foo")
    ∧ GwProxy.hasPathPrefix "/foo" "/foo" = true
    ∧ GwProxy.hasPathPrefix "/foo/" "/foo" = true
    ∧ GwProxy.hasPathPrefix "/foo/bar" "/foo" = true
    ∧ GwProxy.hasPathPrefix "/foobar" "/foo" = false
    ∧ GwProxy.hasPathPrefix "/foo/" "/foo/" = true
    ∧ GwProxy.hasPathPrefix "/foo/bar" "/foo/" = true
    ∧ (∀ (host p v : String) (hs : String → String),
        GwProxy.matchMatch ⟨some ⟨"Exact", v⟩, []⟩ ⟨host, p, hs⟩ = (p = v : Bool))
    ∧ GwProxy.matchMatch ⟨some ⟨"Exact", "/foo"⟩, []⟩ ⟨"example.com", "/foot", fun _ => ""⟩ = false := by
  refine ⟨?_, by decide, by decide, by decide, by decide, by decide, by decide, ?_, by decide⟩
  · intro p
    simp [GwProxy.matchMatch, GwProxy.PathMatchTypeExact, GwProxy.PathMatchTypePathPrefix]
  · intro host p v hs
    simp [GwProxy.matchMatch, GwProxy.PathMatchTypeExact]

/-- C4 (failing input): the data plane of `pkg/proxy/proxy.go` compares every
header clause by literal string equality with the clause's value, ignoring
the clause type.  For a `RegularExpression` clause with pattern `a.c`, a
request header value `abc` (matched by the pattern) does not satisfy the
clause, while the header value `a.c` (the pattern text itself) does — the
opposite of compiled-pattern matching. -/
theorem claim_C4 :
    GwProxy.matchMatch ⟨none, [⟨"RegularExpression", "x-test", "a.c"⟩]⟩
      ⟨"example.com", "/", fun n => if n = "x-test" then "abc" else ""⟩ = false
    ∧ GwProxy.matchMatch ⟨none, [⟨"RegularExpression", "x-test", "a.c"⟩]⟩
      ⟨"example.com", "/", fun n => if n = "x-test" then "a.c" else ""⟩ = true := by
  decide

/-- C10: a compiled path clause whose type is none of `Exact`, `PathPrefix`,
`None` imposes no path constraint (the match reduces to its header clauses),
its weight is 0 — strictly below the no-path weight 1 — and in precedence
comparisons it loses the first key in both directions to every candidate
whose path type is recognized or absent. -/
theorem claim_C10 (t : GwProxy.PathMatchType)
    (h1 : t ≠ "Exact") (h2 : t ≠ "PathPrefix") (h3 : t ≠ "None")
    (v : String) (hs : List GwProxy.HeaderMatch) (r : GwProxy.Request)
    (m' : GwProxy.RouteMatch)
    (hrec : GwProxy.getPathMatchType m' = "Exact" ∨ GwProxy.getPathMatchType m' = "PathPrefix"
      ∨ GwProxy.getPathMatchType m' = "None") :
    GwProxy.matchMatch ⟨some ⟨t, v⟩, hs⟩ r = hs.all (fun hm => r.headerGet hm.name = hm.value)
    ∧ GwProxy.PathMatchType.Weight t = 0
    ∧ GwProxy.isBetterMatch ⟨some ⟨t, v⟩, hs⟩ (some m') = false
    ∧ GwProxy.isBetterMatch m' (some ⟨some ⟨t, v⟩, hs⟩) = true := by
  have hw : GwProxy.PathMatchType.Weight t = 0 := by
    simp [GwProxy.PathMatchType.Weight, GwProxy.PathMatchTypeExact,
      GwProxy.PathMatchTypePathPrefix, GwProxy.PathMatchTypeNone, h1, h2, h3]
  have htype : GwProxy.getPathMatchType ⟨some ⟨t, v⟩, hs⟩ = t := rfl
  have hwm : 1 ≤ (GwProxy.getPathMatchType m').Weight := by
    rcases hrec with h | h | h <;>
      simp [h, GwProxy.PathMatchType.Weight, GwProxy.PathMatchTypeExact,
        GwProxy.PathMatchTypePathPrefix, GwProxy.PathMatchTypeNone]
  have hne : GwProxy.getPathMatchType m' ≠ t := by
    rcases hrec with h | h | h <;> rw [h] <;> exact fun hc => (by simp [hc] at h1 h2 h3)
  refine ⟨?_, hw, ?_, ?_⟩
  · simp [GwProxy.matchMatch, GwProxy.PathMatchTypeExact, GwProxy.PathMatchTypePathPrefix, h1, h2]
  · simp only [GwProxy.isBetterMatch, htype]
    rw [if_pos (show t ≠ GwProxy.getPathMatchType m' from fun hc => hne hc.symm)]
    simp only [decide_eq_false_iff_not, gt_iff_lt, not_lt, hw]
    omega
  · simp only [GwProxy.isBetterMatch, htype]
    rw [if_pos hne]
    simp only [decide_eq_true_eq, gt_iff_lt, hw]
    omega


/-- C8: when the gateway's class is this controller's and the backing
`gari-proxy` service has no provisioned ingress address, the gateway
reconciler writes no status at all (in particular no `Programmed=True`),
returns no error, and explicitly requests a requeue. -/
theorem claim_C8 (generation : Nat) (gc : GwController.GatewayClass)
    (svc : GwController.ProxyService) (writeOk : Bool)
    (hgc : gc.controllerName = GwController.ControllerName)
    (hip : GwController.provisionedIP svc = "") :
    GwController.GatewayReconciler.Reconcile generation (some gc) (some svc) writeOk
      = { statusWrite := none, error := false, requeue := true } := by
  simp [GwController.GatewayReconciler.Reconcile, hgc, hip]

/-- Closed instance of C8: a matching class and a service with an empty
ingress list produce exactly a no-op with requeue. -/
theorem claim_C8_witness :
    GwController.GatewayReconciler.Reconcile 3 (some ⟨GwController.ControllerName⟩) (some ⟨[]⟩) true
      = { statusWrite := none, error := false, requeue := true } :=
  claim_C8 3 ⟨GwController.ControllerName⟩ ⟨[]⟩ true rfl rfl

/-- Helper for C7: the backend-reference scan, on any reference list, returns
exactly the first qualifying reference's compiled rule. -/
theorem extractRuleFromRefs_eq_find (compile : GwController.RegexpCompile)
    (ns : String) (rule : GwController.GwRouteRule) :
    ∀ refs : List GwController.GwBackendRef,
      GwController.extractRuleFromRefs compile ns rule refs
        = (refs.find? GwController.backendRefQualifies).map fun ref =>
            { Matches := rule.Matches.map (GwController.compileMatch compile)
              backend := { host := ref.name ++ "." ++ ns ++ ".svc.cluster.local"
                           port := ref.port.getD 0 } }
  | [] => rfl
  | ref :: rest => by
    by_cases hk : ref.kind ≠ none ∧ ref.kind ≠ some "Service"
    · have hq : GwController.backendRefQualifies ref = false := by
        simp only [GwController.backendRefQualifies, Bool.and_eq_false_iff]
        left
        simp [hk.1, hk.2]
      rw [GwController.extractRuleFromRefs, if_pos hk, List.find?_cons_of_neg _ (by simp [hq]),
        extractRuleFromRefs_eq_find compile ns rule rest]
    · by_cases hp : ref.port = none
      · have hq : GwController.backendRefQualifies ref = false := by
          simp [GwController.backendRefQualifies, hp]
        rw [GwController.extractRuleFromRefs, if_neg hk, if_pos hp,
          List.find?_cons_of_neg _ (by simp [hq]), extractRuleFromRefs_eq_find compile ns rule rest]
      · have hq : GwController.backendRefQualifies ref = true := by
        
          rcases Decidable.not_and_iff_or_not.mp hk with h | h
          · simp only [ne_eq, not_not] at h
            simp [GwController.backendRefQualifies, h, hp]
          · simp only [ne_eq, not_not] at h
            simp [GwController.backendRefQualifies, h, hp]
        rw [GwController.extractRuleFromRefs, if_neg hk, if_neg hp,
          List.find?_cons_of_pos _ hq]
        rfl

/-- C7: for every route and rule, the compiled rule is obtained by taking
the first backend reference that qualifies (kind unset or `Service`, port
set); the compiled backend's host is `<name>.<route-namespace>.svc.cluster.local`
with that reference's port; later qualifying references are ignored, and a
rule with no qualifying reference is omitted from the compiled route
(`filterMap` drops the `none`).  On the specification's example route, the
compiled table is exactly one rule with backend
`svc.ns.svc.cluster.local:80` and an `Exact /foo` match. -/
theorem claim_C7 (compile : GwController.RegexpCompile) (route : GwController.GwHTTPRoute)
    (rule : GwController.GwRouteRule) :
    (GwController.extractRuleFromRefs compile route.ns rule rule.backendRefs
      = (rule.backendRefs.find? GwController.backendRefQualifies).map fun ref =>
          { Matches := rule.Matches.map (GwController.compileMatch compile)
            backend := { host := ref.name ++ "." ++ route.ns ++ ".svc.cluster.local"
                         port := ref.port.getD 0 } })
    ∧ ((GwController.compileRoute compile route).rules
        = route.rules.filterMap fun rule =>
            (rule.backendRefs.find? GwController.backendRefQualifies).map fun ref =>
              { Matches := rule.Matches.map (GwController.compileMatch compile)
                backend := { host := ref.name ++ "." ++ route.ns ++ ".svc.cluster.local"
                             port := ref.port.getD 0 } })
    ∧ GwController.extractRoutes GwFix.okCompile [GwFix.exampleRoute]
        = [⟨["example.com"], [⟨[⟨some ⟨"Exact", "/foo"⟩, []⟩], ⟨"svc.ns.svc.cluster.local", 80⟩⟩]⟩] := by
  refine ⟨extractRuleFromRefs_eq_find compile route.ns rule rule.backendRefs, ?_, by decide⟩
  simp only [GwController.compileRoute]
  exact List.filterMap_congr fun rule _ =>
    extractRuleFromRefs_eq_find compile route.ns rule rule.backendRefs

/-- C6: a reconcile event whose route fails validation writes the failure
status, performs no table rebuild (so `UpdateRoutes` is never called and the
published table is untouched), and returns no error. -/
theorem claim_C6 (compile : GwController.RegexpCompile) (route : GwController.GwHTTPRoute)
    (lst : List GwController.GwHTTPRoute) (e : String)
    (hval : GwController.validateRoute compile route = some e) :
    GwController.HTTPRouteReconciler.Reconcile compile true route lst
      = { statusWrite := some (GwController.buildParentStatuses route "False" "UnsupportedValue"
            ("Invalid route: " ++ e))
          tableUpdate := none
          error := false }
    ∧ ∀ tbl, GwController.applyTableUpdate tbl
        (GwController.HTTPRouteReconciler.Reconcile compile true route lst) = tbl := by
  have h : GwController.HTTPRouteReconciler.Reconcile compile true route lst
      = { statusWrite := some (GwController.buildParentStatuses route "False" "UnsupportedValue"
            ("Invalid route: " ++ e))
          tableUpdate := none
          error := false } := by
    simp [GwController.HTTPRouteReconciler.Reconcile, hval]
  exact ⟨h, fun tbl => by simp [GwController.applyTableUpdate, h, Option.getD]⟩

/-- Closed instance of C6: with an always-failing pattern compiler and the
fixture route, the reconcile writes the rejection status, leaves any table
unchanged and reports no error. -/
theorem claim_C6_witness :
    GwController.HTTPRouteReconciler.Reconcile GwFix.badCompile true GwFix.regexRoute []
      = { statusWrite := some (GwController.buildParentStatuses GwFix.regexRoute "False" "UnsupportedValue"
            "Invalid route: invalid regular expression in header match: bad")
          tableUpdate := none
          error := false }
    ∧ ∀ tbl, GwController.applyTableUpdate tbl
        (GwController.HTTPRouteReconciler.Reconcile GwFix.badCompile true GwFix.regexRoute []) = tbl :=
  claim_C6 GwFix.badCompile GwFix.regexRoute [] "invalid regular expression in header match: bad" (by decide)

/-- Helper for C5: the rejection status written for an invalid route never
passes the acceptance filter of `extractRoutes`. -/
theorem routeAccepted_withStatus_false (route : GwController.GwHTTPRoute) (emsg : String) :
    GwController.routeAccepted
      (GwController.withStatus route
        (GwController.buildParentStatuses route "False" "UnsupportedValue" emsg)) = false := by
  simp [GwController.routeAccepted, GwController.withStatus, GwController.buildParentStatuses,
    List.any_map, Function.comp]

/-- C5: a route containing a `RegularExpression` header match whose pattern
fails to compile is rejected by the validation pass with the compile-error
message; the reconcile writes `Accepted=False` with reason
`UnsupportedValue` (message carrying the compile error) on every declared
parent attachment and calls no table update; and a route carrying that
written status is excluded from any table `extractRoutes` compiles. -/
theorem claim_C5 (compile : GwController.RegexpCompile) (route : GwController.GwHTTPRoute)
    (lst : List GwController.GwHTTPRoute)
    (h : ∃ rule ∈ route.rules, ∃ m ∈ rule.Matches, ∃ hm ∈ m.headers,
      hm.type = some "RegularExpression" ∧ ∃ e, compile hm.value = .error e) :
    ∃ emsg, GwController.validateRoute compile route = some emsg
      ∧ (∃ err, emsg = "invalid regular expression in header match: " ++ err)
      ∧ GwController.HTTPRouteReconciler.Reconcile compile true route lst
          = { statusWrite := some (GwController.buildParentStatuses route "False"
                "UnsupportedValue" ("Invalid route: " ++ emsg))
              tableUpdate := none
              error := false }
      ∧ (∀ ps ∈ GwController.buildParentStatuses route "False" "UnsupportedValue"
            ("Invalid route: " ++ emsg),
          ∃ c ∈ ps.conditions, c.type = "Accepted" ∧ c.status = "False"
            ∧ c.reason = "UnsupportedValue" ∧ c.message = "Invalid route: " ++ emsg)
      ∧ (∀ l1 l2 : List GwController.GwHTTPRoute,
          GwController.extractRoutes compile
              (l1 ++ GwController.withStatus route (GwController.buildParentStatuses route "False"
                "UnsupportedValue" ("Invalid route: " ++ emsg)) :: l2)
            = GwController.extractRoutes compile (l1 ++ l2)) := by
  -- the validation pass fails
  have hne : GwController.validateRoute compile route ≠ none := by
    rw [ne_eq, GwController.validateRoute, List.findSome?_eq_none_iff]
    push_neg
    obtain ⟨rule, hrule, m, hm, hd, hhd, htype, e, herr⟩ := h
    refine ⟨rule, hrule, ?_⟩
    rw [ne_eq, List.findSome?_eq_none_iff]
    push_neg
    refine ⟨m, hm, ?_⟩
    rw [ne_eq, List.findSome?_eq_none_iff]
    push_neg
    refine ⟨hd, hhd, ?_⟩
    simp [htype, herr]
  obtain ⟨emsg, hval⟩ := Option.ne_none_iff_exists'.mp hne
  -- the message carries a compile error
  have hmsg : ∃ err, emsg = "invalid regular expression in header match: " ++ err := by
    rw [GwController.validateRoute] at hval
    obtain ⟨rule, -, hval⟩ := List.exists_of_findSome?_eq_some hval
    obtain ⟨m, -, hval⟩ := List.exists_of_findSome?_eq_some hval
    obtain ⟨hd, -, hval⟩ := List.exists_of_findSome?_eq_some hval
    by_cases ht : hd.type = some "RegularExpression"
    · rw [if_pos ht] at hval
      rcases herr : compile hd.value with e | u
      · rw [herr] at hval
        exact ⟨e, (Option.some.injEq _ _ ▸ hval).symm⟩
      · rw [herr] at hval
        exact absurd hval (by simp)
    · rw [if_neg ht] at hval
      exact absurd hval (by simp)
  have hrec : GwController.HTTPRouteReconciler.Reconcile compile true route lst
      = { statusWrite := some (GwController.buildParentStatuses route "False"
            "UnsupportedValue" ("Invalid route: " ++ emsg))
          tableUpdate := none
          error := false } := by
    simp [GwController.HTTPRouteReconciler.Reconcile, hval]
  refine ⟨emsg, hval, hmsg, hrec, ?_, ?_⟩
  · intro ps hps
    simp only [GwController.buildParentStatuses, List.mem_map] at hps
    obtain ⟨pref, -, rfl⟩ := hps
    exact ⟨_, List.mem_cons_self _ _, rfl, rfl, rfl, rfl⟩
  · intro l1 l2
    simp [GwController.extractRoutes, List.filterMap_append, List.filterMap_cons,
      routeAccepted_withStatus_false route ("Invalid route: " ++ emsg)]

/-- Closed instance of C5 at the fixture route and the always-failing
compiler. -/
theorem claim_C5_witness :
    ∃ emsg, GwController.validateRoute GwFix.badCompile GwFix.regexRoute = some emsg
      ∧ (∃ err, emsg = "invalid regular expression in header match: " ++ err)
      ∧ GwController.HTTPRouteReconciler.Reconcile GwFix.badCompile true GwFix.regexRoute []
          = { statusWrite := some (GwController.buildParentStatuses GwFix.regexRoute "False"
                "UnsupportedValue" ("Invalid route: " ++ emsg))
              tableUpdate := none
              error := false }
      ∧ (∀ ps ∈ GwController.buildParentStatuses GwFix.regexRoute "False" "UnsupportedValue"
            ("Invalid route: " ++ emsg),
          ∃ c ∈ ps.conditions, c.type = "Accepted" ∧ c.status = "False"
            ∧ c.reason = "UnsupportedValue" ∧ c.message = "Invalid route: " ++ emsg)
      ∧ (∀ l1 l2 : List GwController.GwHTTPRoute,
          GwController.extractRoutes GwFix.badCompile
              (l1 ++ GwController.withStatus GwFix.regexRoute (GwController.buildParentStatuses GwFix.regexRoute
                "False" "UnsupportedValue" ("Invalid route: " ++ emsg)) :: l2)
            = GwController.extractRoutes GwFix.badCompile (l1 ++ l2)) :=
  claim_C5 GwFix.badCompile GwFix.regexRoute []
    ⟨⟨[⟨none, [⟨some "RegularExpression", "x-h", "("⟩]⟩], [⟨none, "svc", some 80⟩]⟩, by decide,
      ⟨none, [⟨some "RegularExpression", "x-h", "("⟩]⟩, by decide,
      ⟨some "RegularExpression", "x-h", "("⟩, by decide, rfl, "bad", rfl⟩

/-- Helper: the weight function determines the type only up to weight; but a
weight of 1 is exactly the `None` type. -/
theorem Weight_eq_one_iff (t : GwProxy.PathMatchType) :
    GwProxy.PathMatchType.Weight t = 1 ↔ t = "None" := by
  simp only [GwProxy.PathMatchType.Weight, GwProxy.PathMatchTypeExact,
    GwProxy.PathMatchTypePathPrefix, GwProxy.PathMatchTypeNone]
  split_ifs with h1 h2 h3 <;> simp_all

/-- Helper: on the three recognized path types the weight is injective. -/
theorem Weight_inj_recognized (t1 t2 : GwProxy.PathMatchType)
    (h1 : t1 = "Exact" ∨ t1 = "PathPrefix" ∨ t1 = "None")
    (h2 : t2 = "Exact" ∨ t2 = "PathPrefix" ∨ t2 = "None")
    (hw : GwProxy.PathMatchType.Weight t1 = GwProxy.PathMatchType.Weight t2) : t1 = t2 := by
  rcases h1 with h | h | h <;> rcases h2 with h' | h' | h' <;> subst h <;> subst h' <;>
    first | rfl | (exfalso; revert hw; decide)

/-- C1: comparing two satisfied candidates, precedence is decided first by
path-match-type weight (a strictly greater weight always replaces, a
strictly smaller one never does, regardless of the other keys), a candidate
equal on all three keys never replaces the incumbent, and — for candidates
whose path types are among the recognized `Exact`/`PathPrefix`/`None` — the
comparison is exactly the lexicographic strict order on (weight, path
length, header count). -/
theorem claim_C1 (r : GwProxy.Request) (cur best : GwProxy.RouteMatch)
    (hc : GwProxy.matchMatch cur r = true) (hb : GwProxy.matchMatch best r = true) :
    ((GwProxy.getPathMatchType cur).Weight > (GwProxy.getPathMatchType best).Weight →
        GwProxy.isBetterMatch cur (some best) = true)
    ∧ ((GwProxy.getPathMatchType cur).Weight < (GwProxy.getPathMatchType best).Weight →
        GwProxy.isBetterMatch cur (some best) = false)
    ∧ ((GwProxy.getPathMatchType cur).Weight = (GwProxy.getPathMatchType best).Weight
        ∧ GwProxy.getPathLen cur = GwProxy.getPathLen best
        ∧ cur.headers.length = best.headers.length →
        GwProxy.isBetterMatch cur (some best) = false)
    ∧ ((GwProxy.getPathMatchType cur = "Exact" ∨ GwProxy.getPathMatchType cur = "PathPrefix"
          ∨ GwProxy.getPathMatchType cur = "None") →
       (GwProxy.getPathMatchType best = "Exact" ∨ GwProxy.getPathMatchType best = "PathPrefix"
          ∨ GwProxy.getPathMatchType best = "None") →
       (GwProxy.isBetterMatch cur (some best) = true ↔
         ((GwProxy.getPathMatchType cur).Weight > (GwProxy.getPathMatchType best).Weight
           ∨ ((GwProxy.getPathMatchType cur).Weight = (GwProxy.getPathMatchType best).Weight
              ∧ (GwProxy.getPathLen cur > GwProxy.getPathLen best
                 ∨ (GwProxy.getPathLen cur = GwProxy.getPathLen best
                    ∧ cur.headers.length > best.headers.length)))))) := by
  have hbm : GwProxy.isBetterMatch cur (some best) =
      (if GwProxy.getPathMatchType cur ≠ GwProxy.getPathMatchType best then
        decide ((GwProxy.getPathMatchType cur).Weight > (GwProxy.getPathMatchType best).Weight)
      else if GwProxy.getPathLen cur ≠ GwProxy.getPathLen best then
        decide (GwProxy.getPathLen cur > GwProxy.getPathLen best)
      else decide (cur.headers.length > best.headers.length)) := rfl
  by_cases hteq : GwProxy.getPathMatchType cur = GwProxy.getPathMatchType best
  · have hweq : (GwProxy.getPathMatchType cur).Weight = (GwProxy.getPathMatchType best).Weight := by
      rw [hteq]
    rw [hbm, if_neg (by simp [hteq])]
    refine ⟨fun h => absurd h (by omega), fun h => absurd h (by omega), ?_, ?_⟩
    · rintro ⟨-, hlen, hhdr⟩
      rw [if_neg (by simp [hlen])]
      simp [hhdr]
    · intro _ _
      constructor
      · intro h
        split_ifs at h with hlen
        · exact Or.inr ⟨hweq, Or.inl (by simpa using h)⟩
        · exact Or.inr ⟨hweq, Or.inr ⟨by omega, by simpa using h⟩⟩
      · rintro (h | ⟨-, h | ⟨hlen, hhdr⟩⟩)
        · omega
        · rw [if_pos (by omega)]; simpa using h
        · rw [if_neg (by simp [hlen])]; simpa using hhdr
  · rw [hbm, if_pos hteq]
    refine ⟨fun h => by simpa using h, fun h => by simp; omega, ?_, ?_⟩
    · rintro ⟨hweq, -, -⟩
      simp
      omega
    · intro hrc hrb
      have hwne : (GwProxy.getPathMatchType cur).Weight ≠ (GwProxy.getPathMatchType best).Weight :=
        fun hw => hteq (Weight_inj_recognized _ _ hrc hrb hw)
      constructor
      · intro h
        exact Or.inl (by simpa using h)
      · rintro (h | ⟨hweq, -⟩)
        · simpa using h
        · exact absurd hweq hwne


/-- Characterization of being strictly better than the empty match: a path
weight above 1, or a `None`-weighted candidate with a nonempty path value or
at least one header clause. -/
theorem goodM_iff (m : GwProxy.RouteMatch) :
    GwInv.goodM m ↔ ((GwProxy.getPathMatchType m).Weight > 1
      ∨ (GwProxy.getPathMatchType m = "None"
         ∧ (GwProxy.getPathLen m ≠ 0 ∨ m.headers.length > 0))) := by
  have he : GwProxy.getPathMatchType GwProxy.emptyRouteMatch = "None" := rfl
  have hbm : GwProxy.isBetterMatch m (some GwProxy.emptyRouteMatch) =
      (if GwProxy.getPathMatchType m ≠ "None" then
        decide ((GwProxy.getPathMatchType m).Weight > 1)
      else if GwProxy.getPathLen m ≠ 0 then decide (GwProxy.getPathLen m > 0)
      else decide (m.headers.length > 0)) := rfl
  rw [GwInv.goodM, hbm]
  by_cases ht : GwProxy.getPathMatchType m = "None"
  · rw [if_neg (by simp [ht])]
    have hw : (GwProxy.getPathMatchType m).Weight = 1 := by rw [ht]; decide
    by_cases hl : GwProxy.getPathLen m = 0
    · rw [if_neg (by simp [hl])]
      simp only [ht, hl, hw]
      have h1 : GwProxy.PathMatchType.Weight "None" = 1 := by decide
      simp [h1]
    · rw [if_pos hl]
      simp only [ht, hl, hw]
      have h1 : GwProxy.PathMatchType.Weight "None" = 1 := by decide
      simp [h1, hl]
      omega
  · rw [if_pos ht]
    simp [ht]

/-- Being better than the empty match is inherited downward along a
replacement: a candidate that beats a good incumbent is itself good. -/
theorem goodM_of_better (a b : GwProxy.RouteMatch)
    (hab : GwProxy.isBetterMatch a (some b) = true) (hb : GwInv.goodM b) : GwInv.goodM a := by
  rw [goodM_iff] at hb ⊢
  have hbm : GwProxy.isBetterMatch a (some b) =
      (if GwProxy.getPathMatchType a ≠ GwProxy.getPathMatchType b then
        decide ((GwProxy.getPathMatchType a).Weight > (GwProxy.getPathMatchType b).Weight)
      else if GwProxy.getPathLen a ≠ GwProxy.getPathLen b then
        decide (GwProxy.getPathLen a > GwProxy.getPathLen b)
      else decide (a.headers.length > b.headers.length)) := rfl
  rw [hbm] at hab
  by_cases ht : GwProxy.getPathMatchType a = GwProxy.getPathMatchType b
  · rw [if_neg (by simp [ht])] at hab
    rcases hb with hw | ⟨hn, hlh⟩
    · exact Or.inl (by rw [ht]; exact hw)
    · refine Or.inr ⟨ht.trans hn, ?_⟩
      split_ifs at hab with hl
      · have := of_decide_eq_true hab
        omega
      · have := of_decide_eq_true hab
        omega
  · rw [if_pos ht] at hab
    have hgt := of_decide_eq_true hab
    rcases hb with hw | ⟨hn, -⟩
    · exact Or.inl (by omega)
    · have hw1 : (GwProxy.getPathMatchType b).Weight = 1 := by rw [hn]; decide
      exact Or.inl (by omega)

/-- Being better than the empty match is inherited by an incumbent that a
good candidate fails to replace. -/
theorem goodM_of_not_better (a b : GwProxy.RouteMatch)
    (hab : GwProxy.isBetterMatch a (some b) = false) (ha : GwInv.goodM a) : GwInv.goodM b := by
  rw [goodM_iff] at ha ⊢
  have hbm : GwProxy.isBetterMatch a (some b) =
      (if GwProxy.getPathMatchType a ≠ GwProxy.getPathMatchType b then
        decide ((GwProxy.getPathMatchType a).Weight > (GwProxy.getPathMatchType b).Weight)
      else if GwProxy.getPathLen a ≠ GwProxy.getPathLen b then
        decide (GwProxy.getPathLen a > GwProxy.getPathLen b)
      else decide (a.headers.length > b.headers.length)) := rfl
  rw [hbm] at hab
  by_cases ht : GwProxy.getPathMatchType a = GwProxy.getPathMatchType b
  · rw [if_neg (by simp [ht])] at hab
    rcases ha with hw | ⟨hn, hlh⟩
    · exact Or.inl (by rw [← ht]; exact hw)
    · refine Or.inr ⟨ht.symm.trans hn, ?_⟩
      split_ifs at hab with hl
      · have := of_decide_eq_false hab
        omega
      · have := of_decide_eq_false hab
        omega
  · rw [if_pos ht] at hab
    have hle := of_decide_eq_false hab
    rcases ha with hw | ⟨hn, -⟩
    · exact Or.inl (by omega)
    · have hw1 : (GwProxy.getPathMatchType a).Weight = 1 := by rw [hn]; decide
      have hbn : GwProxy.getPathMatchType b ≠ "None" := fun hc => ht (hn.trans hc.symm)
      have hwb : (GwProxy.getPathMatchType b).Weight ≠ 1 :=
        fun hc => hbn ((Weight_eq_one_iff _).mp hc)
      exact Or.inl (by omega)

/-- The stepwise selection keeps `bestMatch`/`bestBackend` in sync. -/
theorem stateOk_stepMatch (r : GwProxy.Request) (bk : GwProxy.Backend)
    (s : GwProxy.BestState) (m : GwProxy.RouteMatch) (h : GwInv.stateOk s) :
    GwInv.stateOk (GwProxy.stepMatch r bk s m) := by
  unfold GwProxy.stepMatch
  split_ifs <;> first | exact h | simp [GwInv.stateOk]

/-- Scanning a list of matches keeps the state sync invariant. -/
theorem stateOk_foldMatches (r : GwProxy.Request) (bk : GwProxy.Backend)
    (ms : List GwProxy.RouteMatch) :
    ∀ s : GwProxy.BestState, GwInv.stateOk s →
      GwInv.stateOk (ms.foldl (GwProxy.stepMatch r bk) s) := by
  induction ms with
  | nil => exact fun s h => h
  | cons a as ih => exact fun s h => ih _ (stateOk_stepMatch r bk s a h)

/-- A rule with zero matches installs the empty match and its backend only
when no backend is selected yet. -/
theorem stepRule_of_empty (r : GwProxy.Request) (s : GwProxy.BestState)
    (rule : GwProxy.RouteRule) (h : rule.Matches = []) :
    GwProxy.stepRule r s rule =
      if s.bestBackend = none then ⟨some GwProxy.emptyRouteMatch, some rule.backend⟩ else s := by
  simp [GwProxy.stepRule, h]

/-- A rule with at least one match reduces to the scan of its matches. -/
theorem stepRule_of_nonempty (r : GwProxy.Request) (s : GwProxy.BestState)
    (rule : GwProxy.RouteRule) (h : rule.Matches ≠ []) :
    GwProxy.stepRule r s rule = rule.Matches.foldl (GwProxy.stepMatch r rule.backend) s := by
  rw [GwProxy.stepRule, if_neg (by simp [h])]

/-- One rule keeps the state sync invariant. -/
theorem stateOk_stepRule (r : GwProxy.Request) (s : GwProxy.BestState)
    (rule : GwProxy.RouteRule) (h : GwInv.stateOk s) :
    GwInv.stateOk (GwProxy.stepRule r s rule) := by
  by_cases he : rule.Matches = []
  · rw [stepRule_of_empty r s rule he]
    split_ifs
    · simp [GwInv.stateOk]
    · exact h
  · rw [stepRule_of_nonempty r s rule he]
    exact stateOk_foldMatches r rule.backend rule.Matches s h

/-- A whole route keeps the state sync invariant. -/
theorem stateOk_stepRoute (r : GwProxy.Request) (s : GwProxy.BestState)
    (route : GwProxy.HTTPRoute) (h : GwInv.stateOk s) :
    GwInv.stateOk (GwProxy.stepRoute r s route) := by
  unfold GwProxy.stepRoute
  split_ifs with hh
  · clear hh
    induction route.rules generalizing s with
    | nil => exact h
    | cons a as ih => exact ih _ (stateOk_stepRule r s a h)
  · exact h

/-- Once the current best strictly beats the empty match, scanning one more
match keeps that property. -/
theorem goodS_stepMatch (r : GwProxy.Request) (bk : GwProxy.Backend)
    (s : GwProxy.BestState) (m : GwProxy.RouteMatch) (h : GwInv.goodS s) :
    GwInv.goodS (GwProxy.stepMatch r bk s m) := by
  obtain ⟨mOld, b, hm, hb, hgood⟩ := h
  unfold GwProxy.stepMatch
  split_ifs with h1 h2
  · rw [hm] at h2
    exact ⟨m, bk, rfl, rfl, goodM_of_better m mOld h2 hgood⟩
  · exact ⟨mOld, b, hm, hb, hgood⟩
  · exact ⟨mOld, b, hm, hb, hgood⟩

/-- Scanning a list of matches keeps the good-best property. -/
theorem goodS_foldMatches (r : GwProxy.Request) (bk : GwProxy.Backend)
    (ms : List GwProxy.RouteMatch) :
    ∀ s : GwProxy.BestState, GwInv.goodS s →
      GwInv.goodS (ms.foldl (GwProxy.stepMatch r bk) s) := by
  induction ms with
  | nil => exact fun s h => h
  | cons a as ih => exact fun s h => ih _ (goodS_stepMatch r bk s a h)

/-- One rule keeps the good-best property (in particular a zero-match rule
cannot displace a good best). -/
theorem goodS_stepRule (r : GwProxy.Request) (s : GwProxy.BestState)
    (rule : GwProxy.RouteRule) (h : GwInv.goodS s) :
    GwInv.goodS (GwProxy.stepRule r s rule) := by
  by_cases he : rule.Matches = []
  · obtain ⟨m, b, hm, hb, hgood⟩ := h
    rw [stepRule_of_empty r s rule he, if_neg (by rw [hb]; simp)]
    exact ⟨m, b, hm, hb, hgood⟩
  · rw [stepRule_of_nonempty r s rule he]
    exact goodS_foldMatches r rule.backend rule.Matches s h

/-- A whole route keeps the good-best property. -/
theorem goodS_stepRoute (r : GwProxy.Request) (s : GwProxy.BestState)
    (route : GwProxy.HTTPRoute) (h : GwInv.goodS s) :
    GwInv.goodS (GwProxy.stepRoute r s route) := by
  unfold GwProxy.stepRoute
  split_ifs with hh
  · clear hh
    induction route.rules generalizing s with
    | nil => exact h
    | cons a as ih => exact ih _ (goodS_stepRule r s a h)
  · exact h

/-- Scanning a match list that contains a satisfied candidate strictly
better than the empty match leaves the state good. -/
theorem goodS_establish_matches (r : GwProxy.Request) (bk : GwProxy.Backend)
    (m : GwProxy.RouteMatch) (hsat : GwProxy.matchMatch m r = true) (hgood : GwInv.goodM m) :
    ∀ (ms : List GwProxy.RouteMatch) (s : GwProxy.BestState), m ∈ ms → GwInv.stateOk s →
      GwInv.goodS (ms.foldl (GwProxy.stepMatch r bk) s) := by
  intro ms
  induction ms with
  | nil => intro s hmem; exact absurd hmem (List.not_mem_nil m)
  | cons a as ih =>
    intro s hmem hok
    rcases List.mem_cons.mp hmem with rfl | hmem
    · have hstep : GwInv.goodS (GwProxy.stepMatch r bk s m) := by
        unfold GwProxy.stepMatch
        rw [if_pos hsat]
        split_ifs with h1
        · exact ⟨m, bk, rfl, rfl, hgood⟩
        · rcases hsm : s.bestMatch with _ | mOld
          · rw [hsm] at h1
            exact absurd (rfl : GwProxy.isBetterMatch m none = true) h1
          · rw [hsm] at h1
            have hbb : s.bestBackend ≠ none := by
              rw [GwInv.stateOk, hsm] at hok
              simp at hok
              simp [hok]
            rcases hbo : s.bestBackend with _ | b
            · exact absurd hbo hbb
            · exact ⟨mOld, b, hsm, hbo,
                goodM_of_not_better m mOld (Bool.not_eq_true _ ▸ h1 : _) hgood⟩
      rw [List.foldl_cons]
      exact goodS_foldMatches r bk as _ hstep
    · rw [List.foldl_cons]
      exact ih _ hmem (stateOk_stepMatch r bk s a hok)

/-- Scanning a rule list keeps the good-best property. -/
theorem goodS_foldRules (r : GwProxy.Request) (rules : List GwProxy.RouteRule) :
    ∀ s : GwProxy.BestState, GwInv.goodS s →
      GwInv.goodS (rules.foldl (GwProxy.stepRule r) s) := by
  induction rules with
  | nil => exact fun s h => h
  | cons a as ih => exact fun s h => ih _ (goodS_stepRule r s a h)

/-- Scanning a route list keeps the good-best property. -/
theorem goodS_foldRoutes (r : GwProxy.Request) (routes : List GwProxy.HTTPRoute) :
    ∀ s : GwProxy.BestState, GwInv.goodS s →
      GwInv.goodS (routes.foldl (GwProxy.stepRoute r) s) := by
  induction routes with
  | nil => exact fun s h => h
  | cons a as ih => exact fun s h => ih _ (goodS_stepRoute r s a h)

/-- Scanning a rule list in which some rule carries a satisfied candidate
strictly better than the empty match leaves the state good. -/
theorem goodS_establish_rules (r : GwProxy.Request) (m : GwProxy.RouteMatch)
    (hsat : GwProxy.matchMatch m r = true) (hgood : GwInv.goodM m) :
    ∀ (rules : List GwProxy.RouteRule) (s : GwProxy.BestState),
      (∃ rule ∈ rules, m ∈ rule.Matches) → GwInv.stateOk s →
      GwInv.goodS (rules.foldl (GwProxy.stepRule r) s) := by
  intro rules
  induction rules with
  | nil => rintro s ⟨rule, hmem, -⟩; exact absurd hmem (List.not_mem_nil rule)
  | cons a as ih =>
    rintro s ⟨rule, hmem, hmm⟩ hok
    rcases List.mem_cons.mp hmem with rfl | hmem
    · have hne : rule.Matches ≠ [] := fun hc => by
        rw [hc] at hmm
        exact List.not_mem_nil m hmm
      have hstep : GwInv.goodS (GwProxy.stepRule r s rule) := by
        rw [stepRule_of_nonempty r s rule hne]
        exact goodS_establish_matches r rule.backend m hsat hgood rule.Matches s hmm hok
      rw [List.foldl_cons]
      exact goodS_foldRules r as _ hstep
    · rw [List.foldl_cons]
      exact ih _ ⟨rule, hmem, hmm⟩ (stateOk_stepRule r s a hok)

/-- Scanning a route list in which some host-matching route carries a
satisfied candidate strictly better than the empty match leaves the state
good. -/
theorem goodS_establish_routes (r : GwProxy.Request) (m : GwProxy.RouteMatch)
    (hsat : GwProxy.matchMatch m r = true) (hgood : GwInv.goodM m) :
    ∀ (routes : List GwProxy.HTTPRoute) (s : GwProxy.BestState),
      (∃ route ∈ routes, GwProxy.matchHostname route.hostnames r.host = true
        ∧ ∃ rule ∈ route.rules, m ∈ rule.Matches) → GwInv.stateOk s →
      GwInv.goodS (routes.foldl (GwProxy.stepRoute r) s) := by
  intro routes
  induction routes with
  | nil => rintro s ⟨route, hmem, -⟩; exact absurd hmem (List.not_mem_nil route)
  | cons a as ih =>
    rintro s ⟨route, hmem, hhost, hrule⟩ hok
    rcases List.mem_cons.mp hmem with rfl | hmem
    · have hstep : GwInv.goodS (GwProxy.stepRoute r s route) := by
        rw [GwProxy.stepRoute, if_pos hhost]
        exact goodS_establish_rules r m hsat hgood route.rules s hrule hok
      rw [List.foldl_cons]
      exact goodS_foldRoutes r as _ hstep
    · rw [List.foldl_cons]
      exact ih _ ⟨route, hmem, hhost, hrule⟩ (stateOk_stepRoute r s a hok)

/-- C2 (counterexample to the claim as stated): in a table whose first rule
has zero matches (backend `backendA`) and whose second rule has one match —
the empty match, satisfied by every request — the resolution selects the
universal rule's backend `backendA` even though another rule of the table
has a match satisfied by the request. -/
theorem claim_C2_counterexample :
    GwProxy.resolve [⟨[], [⟨[], GwFix.backendA⟩, ⟨[⟨none, []⟩], GwFix.backendB⟩]⟩] GwFix.reqX
      = some GwFix.backendA
    ∧ GwProxy.matchMatch ⟨none, []⟩ GwFix.reqX = true
    ∧ GwFix.backendA ≠ GwFix.backendB := by
  decide

/-- C2 (amended): a zero-match rule's backend can win only while no backend
has been selected yet — a rule with zero matches never displaces an already
selected backend — and it stays the winner only if no host-matching route
anywhere in the table has a satisfied match strictly better than the empty
match under the precedence comparison; a satisfied match that merely ties
with the empty match does not prevent the universal rule from winning. -/
theorem claim_C2 :
    (∀ (r : GwProxy.Request) (routes : List GwProxy.HTTPRoute),
      (∃ route ∈ routes, GwProxy.matchHostname route.hostnames r.host = true
        ∧ ∃ rule ∈ route.rules, ∃ m ∈ rule.Matches, GwProxy.matchMatch m r = true
          ∧ GwProxy.isBetterMatch m (some GwProxy.emptyRouteMatch) = true) →
      (GwProxy.resolveState routes r).bestMatch ≠ some GwProxy.emptyRouteMatch)
    ∧ (∀ (r : GwProxy.Request) (s : GwProxy.BestState) (rule : GwProxy.RouteRule),
        rule.Matches = [] → s.bestBackend ≠ none → GwProxy.stepRule r s rule = s) := by
  constructor
  · intro r routes h
    obtain ⟨route, hmem, hhost, rule, hrmem, m, hmmem, hsat, hbet⟩ := h
    have hgood : GwInv.goodS (GwProxy.resolveState routes r) := by
      rw [GwProxy.resolveState]
      exact goodS_establish_routes r m hsat hbet routes ⟨none, none⟩
        ⟨route, hmem, hhost, rule, hrmem, hmmem⟩ (by simp [GwInv.stateOk])
    obtain ⟨mB, b, hm, -, hgm⟩ := hgood
    rw [hm]
    intro hc
    rw [Option.some.injEq] at hc
    rw [hc, GwInv.goodM] at hgm
    exact absurd hgm (by decide)
  · intro r s rule hempty hbb
    rw [stepRule_of_empty r s rule hempty, if_neg hbb]

/-- Invariant of the racing executions: the published table is always one of
the two publishes, a captured snapshot is one of the two, and a finished
resolution is the matcher's result on one of the two. -/
theorem reach_inv (old newT : List GwProxy.HTTPRoute) (r : GwProxy.Request) (s : GwConc.Sys)
    (h : GwConc.Reaches newT r (GwConc.init old) s) :
    (s.table = old ∨ s.table = newT)
    ∧ (∀ snap, s.reader = .captured snap → snap = old ∨ snap = newT)
    ∧ (∀ res, s.reader = .finished res
        → res = GwProxy.resolve old r ∨ res = GwProxy.resolve newT r) := by
  induction h with
  | refl =>
    refine ⟨Or.inl rfl, ?_, ?_⟩
    · intro snap hc
      simp [GwConc.init] at hc
    · intro res hc
      simp [GwConc.init] at hc
  | tail hab hbc ih =>
    obtain ⟨iht, ihc, ihd⟩ := ih
    cases hbc with
    | write hw =>
      exact ⟨Or.inr rfl, fun snap hc => ihc snap hc, fun res hc => ihd res hc⟩
    | capture hcb =>
      refine ⟨iht, ?_, ?_⟩
      · intro snap hs
        simp at hs
        rw [← hs]
        exact iht
      · intro res hs
        simp at hs
    | serve snap hcap =>
      refine ⟨iht, ?_, ?_⟩
      · intro snap' hs
        simp at hs
      · intro res hs
        simp at hs
        rcases ihc snap hcap with hold | hnew
        · exact Or.inl (by rw [← hs, hold])
        · exact Or.inr (by rw [← hs, hnew])

/-- C9: in any interleaving of one table replacement with one request
resolution, the resolution's result is the matcher applied to the entire old
table or to the entire new table — never to a mixture: the reader captures
the handle once and matches only against that snapshot. -/
theorem claim_C9 (old newT : List GwProxy.HTTPRoute) (r : GwProxy.Request) (s : GwConc.Sys)
    (res : Option GwProxy.Backend)
    (hreach : GwConc.Reaches newT r (GwConc.init old) s)
    (hdone : s.reader = .finished res) :
    res = GwProxy.resolve old r ∨ res = GwProxy.resolve newT r :=
  (reach_inv old newT r s hreach).2.2 res hdone

/-- Closed instance of C9: the execution that captures the empty old table,
then suffers a concurrent publish, then resolves, yields the old table's
result. -/
theorem claim_C9_witness :
    GwProxy.resolve [] GwFix.reqX = GwProxy.resolve [] GwFix.reqX
      ∨ GwProxy.resolve [] GwFix.reqX = GwProxy.resolve [⟨[], []⟩] GwFix.reqX :=
  claim_C9 [] [⟨[], []⟩] GwFix.reqX
    ⟨[⟨[], []⟩], true, .finished (GwProxy.resolve [] GwFix.reqX)⟩
    (GwProxy.resolve [] GwFix.reqX)
    (Relation.ReflTransGen.tail
      (Relation.ReflTransGen.tail
        (Relation.ReflTransGen.single (GwConc.Step.capture _ rfl))
        (GwConc.Step.write _ rfl))
      (GwConc.Step.serve _ [] rfl))
    rfl

/-- Closed instance of C1: an `Exact /a` candidate (weight 3) replaces a
`PathPrefix /a` incumbent (weight 2), both satisfied by the request. -/
theorem claim_C1_witness :
    GwProxy.isBetterMatch ⟨some ⟨"Exact", "/a"⟩, []⟩ (some ⟨some ⟨"PathPrefix", "/a"⟩, []⟩) = true :=
  (claim_C1 GwFix.reqA ⟨some ⟨"Exact", "/a"⟩, []⟩ ⟨some ⟨"PathPrefix", "/a"⟩, []⟩
    (by decide) (by decide)).1 (by decide)

/-- Closed instance of C2 (amended): with an `Exact /a` match satisfied in
the table, the final best match is not the empty match; and a zero-match
rule does not displace an already selected backend. -/
theorem claim_C2_witness :
    (GwProxy.resolveState GwFix.tableExact GwFix.reqA).bestMatch ≠ some GwProxy.emptyRouteMatch
    ∧ GwProxy.stepRule GwFix.reqA ⟨some GwProxy.emptyRouteMatch, some GwFix.backendA⟩
        ⟨[], GwFix.backendB⟩ = ⟨some GwProxy.emptyRouteMatch, some GwFix.backendA⟩ :=
  ⟨claim_C2.1 GwFix.reqA GwFix.tableExact
      ⟨⟨[], [⟨[⟨some ⟨"Exact", "/a"⟩, []⟩], GwFix.backendB⟩]⟩, by decide, by decide,
        ⟨[⟨some ⟨"Exact", "/a"⟩, []⟩], GwFix.backendB⟩, by decide,
        ⟨some ⟨"Exact", "/a"⟩, []⟩, by decide, by decide, by decide⟩,
    claim_C2.2 GwFix.reqA ⟨some GwProxy.emptyRouteMatch, some GwFix.backendA⟩
      ⟨[], GwFix.backendB⟩ rfl (by decide)⟩

/-- Closed instance of C10: a `RegularExpression` path clause (weight 0)
imposes no path constraint, never beats a no-path candidate, and always
loses to it. -/
theorem claim_C10_witness :
    GwProxy.matchMatch ⟨some ⟨"RegularExpression", "/x"⟩, []⟩ GwFix.reqX = true
    ∧ GwProxy.PathMatchType.Weight "RegularExpression" = 0
    ∧ GwProxy.isBetterMatch ⟨some ⟨"RegularExpression", "/x"⟩, []⟩ (some ⟨none, []⟩) = false
    ∧ GwProxy.isBetterMatch ⟨none, []⟩ (some ⟨some ⟨"RegularExpression", "/x"⟩, []⟩) = true := by
  have h := claim_C10 "RegularExpression" (by decide) (by decide) (by decide)
    "/x" [] GwFix.reqX ⟨none, []⟩ (Or.inr (Or.inr (by decide)))
  exact ⟨by rw [h.1]; decide, h.2.1, h.2.2.1, h.2.2.2⟩
